import Mathlib

/-!
Verification of the LogDNA ansible callback plugin
(`lib/ansible/plugins/callback/logdna.py`).

The Python values flowing through the plugin (task results, metadata
dictionaries, configuration options) are embedded as the mutual inductive
family `PyVal` / `PyList` / `PyDict` — a tagged union of None, bool, int,
string, list and dict, where a dict is an insertion-ordered sequence of
string-keyed entries (every dict the plugin builds has string keys, and
CPython dicts preserve insertion order).  The pure functions of the source
(`delete_empty_values`, `get_hwaddr`, `SafeFormat`, the body of
`LogDNAHTTPIngestEndpoint.send_logdna`, `CallbackModule._handle_event` and
the ignore-list / hostname parts of `CallbackModule.set_options`) become
Lean functions; the exceptions Python can raise along these paths become
an explicit error type `PyErr` threaded through `Except`.  Format
templates are embedded in parsed form (`FmtItem`): the alternating
literal/placeholder sequence that Python's `string.Formatter.parse`
produces for templates without conversion or format-spec suffixes, which
covers the plugin's default template and the documented custom formats.
-/

mutual

/-- Embedding of the Python values the plugin manipulates. -/
inductive PyVal where
  | none : PyVal
  | bool : Bool → PyVal
  | int : Int → PyVal
  | str : String → PyVal
  | list : PyList → PyVal
  | dict : PyDict → PyVal
deriving DecidableEq, Repr

/-- A Python list of `PyVal`s. -/
inductive PyList where
  | nil : PyList
  | cons : PyVal → PyList → PyList
deriving DecidableEq, Repr

/-- A Python dict with string keys, in insertion order. -/
inductive PyDict where
  | nil : PyDict
  | cons : String → PyVal → PyDict → PyDict
deriving DecidableEq, Repr

end

/-- Build a `PyList` from a Lean list (notation convenience only). -/
def PyList.ofList : List PyVal → PyList
  | [] => .nil
  | v :: vs => .cons v (PyList.ofList vs)

/-- Build a `PyDict` from a Lean association list (notation convenience only). -/
def PyDict.ofList : List (String × PyVal) → PyDict
  | [] => .nil
  | (k, v) :: kvs => .cons k v (PyDict.ofList kvs)

/-- Concatenation of dict entry sequences.  Used to model Python's
`d[k] = v` assignments that append a fresh key to a dict literal. -/
def PyDict.append : PyDict → PyDict → PyDict
  | .nil, d => d
  | .cons k v tl, d => .cons k v (tl.append d)

/-- First binding of a key, if any (Python dicts have unique keys, so on
faithfully-modelled dicts this is the binding of `k`). -/
def PyDict.get? : PyDict → String → Option PyVal
  | .nil, _ => Option.none
  | .cons k v tl, key => if k = key then some v else tl.get? key

/-- Python's `d.get(k, default)`. -/
def PyDict.getD (d : PyDict) (key : String) (dflt : PyVal) : PyVal :=
  (d.get? key).getD dflt

/-- Python's `d.get(k)` (default `None`). -/
def pyDictGet (d : PyDict) (key : String) : PyVal :=
  d.getD key .none

/-- Python truthiness: `None`, `False`, `0`, `""`, `[]` and `{}` are falsy,
everything else is truthy. -/
def truthy : PyVal → Bool
  | .none => false
  | .bool b => b
  | .int n => n ≠ 0
  | .str s => s ≠ ""
  | .list .nil => false
  | .list _ => true
  | .dict .nil => false
  | .dict _ => true

mutual

/-- `delete_empty_values` (logdna.py lines 183-192): recursively removes
falsy values from dicts and lists; non-container values are returned
unchanged. -/
def delete_empty_values : PyVal → PyVal
  | .list l => .list (deleteEmptyList l)
  | .dict d => .dict (deleteEmptyDict d)
  | v => v

/-- The list comprehension
`[v for v in (delete_empty_values(v) for v in d) if v]`. -/
def deleteEmptyList : PyList → PyList
  | .nil => .nil
  | .cons v vs =>
      let v' := delete_empty_values v
      if truthy v' then .cons v' (deleteEmptyList vs) else deleteEmptyList vs

/-- The dict comprehension
`{k: v for k, v in ((k, delete_empty_values(v)) for k, v in d.items()) if v}`. -/
def deleteEmptyDict : PyDict → PyDict
  | .nil => .nil
  | .cons k v kvs =>
      let v' := delete_empty_values v
      if truthy v' then .cons k v' (deleteEmptyDict kvs) else deleteEmptyDict kvs

end

/-- A value is "empty-ish" when it is null, the empty string, the empty
sequence or the empty mapping — the shapes the specification's invariant
bans from pruned metadata. -/
def isEmptyish : PyVal → Bool
  | .none => true
  | .str s => s = ""
  | .list .nil => true
  | .dict .nil => true
  | _ => false

mutual

/-- No value bound inside (at any nesting depth) is empty-ish. -/
def noEmptyVals : PyVal → Bool
  | .list l => noEmptyValsList l
  | .dict d => noEmptyValsDict d
  | _ => true

def noEmptyValsList : PyList → Bool
  | .nil => true
  | .cons v vs => !isEmptyish v && noEmptyVals v && noEmptyValsList vs

def noEmptyValsDict : PyDict → Bool
  | .nil => true
  | .cons _ v kvs => !isEmptyish v && noEmptyVals v && noEmptyValsDict kvs

end

mutual

/-- Every value bound inside (at any nesting depth) is truthy. -/
def allValsTruthy : PyVal → Bool
  | .list l => allValsTruthyList l
  | .dict d => allValsTruthyDict d
  | _ => true

def allValsTruthyList : PyList → Bool
  | .nil => true
  | .cons v vs => truthy v && allValsTruthy v && allValsTruthyList vs

def allValsTruthyDict : PyDict → Bool
  | .nil => true
  | .cons _ v kvs => truthy v && allValsTruthy v && allValsTruthyDict kvs

end

mutual

/-- No value bound inside (at any nesting depth) is `False` or `0`. -/
def noFalseZeroVals : PyVal → Bool
  | .list l => noFalseZeroValsList l
  | .dict d => noFalseZeroValsDict d
  | _ => true

def noFalseZeroValsList : PyList → Bool
  | .nil => true
  | .cons v vs =>
      !(v = PyVal.bool false) && !(v = PyVal.int 0)
        && noFalseZeroVals v && noFalseZeroValsList vs

def noFalseZeroValsDict : PyDict → Bool
  | .nil => true
  | .cons _ v kvs =>
      !(v = PyVal.bool false) && !(v = PyVal.int 0)
        && noFalseZeroVals v && noFalseZeroValsDict kvs

end

mutual

/-- Python `repr` of a value, as used by `str.format` when rendering
containers.  Strings are wrapped in single quotes; escaping of quotes and
backslashes inside the string is not modelled (no claim depends on it). -/
def pyRepr : PyVal → String
  | .none => "None"
  | .bool true => "True"
  | .bool false => "False"
  | .int n => toString n
  | .str s => "\x27" ++ s ++ "\x27"
  | .list l => "[" ++ pyReprList l ++ "]"
  | .dict d => "\x7b" ++ pyReprDict d ++ "\x7d"

def pyReprList : PyList → String
  | .nil => ""
  | .cons v .nil => pyRepr v
  | .cons v tl => pyRepr v ++ ", " ++ pyReprList tl

def pyReprDict : PyDict → String
  | .nil => ""
  | .cons k v .nil => "\x27" ++ k ++ "\x27: " ++ pyRepr v
  | .cons k v tl => "\x27" ++ k ++ "\x27: " ++ pyRepr v ++ ", " ++ pyReprDict tl

end

/-- Python `str()` of a value — what `str.format` substitutes for a
placeholder with no conversion and empty format spec. -/
def pyStr : PyVal → String
  | .str s => s
  | v => pyRepr v

/-- The exceptions that can be raised along the modelled paths. -/
inductive PyErr where
  /-- the `Exception` raised by `SafeFormat.get_field` (lines 240-243) -/
  | formatError : PyErr
  /-- `KeyError`: missing dict key on `d[k]` / missing keyword argument -/
  | keyError : PyErr
  /-- `IndexError`: positional placeholder with no positional arguments -/
  | indexError : PyErr
  /-- `AttributeError`: `.get(...)` called on a non-dict (e.g. `None`) -/
  | attributeError : PyErr
deriving DecidableEq, Repr

/-- `v.get(key)` where `v` is not necessarily a dict: Python raises
`AttributeError` unless `v` is a dict (only dicts among our value shapes
have a `.get` method). -/
def pyGet (v : PyVal) (key : String) : Except PyErr PyVal :=
  match v with
  | .dict d => .ok (pyDictGet d key)
  | _ => .error .attributeError

/-- One item of a parsed format template, as produced by
`string.Formatter.parse` for templates without conversion/format-spec
suffixes: either a literal chunk or a replacement field `{name}`. -/
inductive FmtItem where
  | lit : String → FmtItem
  | field : String → FmtItem
deriving DecidableEq, Repr

/-- The character test of `SafeFormat.get_field` (lines 237-239):
does the field name contain `.`, `[` or `(`?  (Membership is computed on
the character list of the string.) -/
def has_forbidden_char (field_name : String) : Bool :=
  field_name.toList.contains '.' || field_name.toList.contains '['
    || field_name.toList.contains '('

/-- The fixed set of placeholder names the plugin passes to
`SafeFormat.format` (lines 341-348). -/
def fixed_field_names : List String :=
  ["action", "changed", "host", "playbook", "role", "status", "name"]

/-- `SafeFormat.get_field` (lines 236-244): reject any field name
containing `.`, `[` or `(`, then defer to `string.Formatter.get_field`.
The plugin calls `format` with keyword arguments only, so the inherited
lookup resolves an empty or all-digit field name positionally (raising
`IndexError`, there being no positional arguments) and any other name via
the keyword mapping (raising `KeyError` when absent). -/
def SafeFormat.get_field (field_name : String) (kwargs : List (String × PyVal)) :
    Except PyErr PyVal :=
  if has_forbidden_char field_name then
    .error .formatError
  else if field_name = "" || field_name.toList.all Char.isDigit then
    .error .indexError
  else
    match kwargs.lookup field_name with
    | some v => .ok v
    | Option.none => .error .keyError

/-- `string.Formatter.vformat` on a parsed template: concatenate literal
chunks and rendered fields left to right; the first failing field lookup
raises. -/
def SafeFormat.vformat (items : List FmtItem) (kwargs : List (String × PyVal)) :
    Except PyErr String :=
  match items with
  | [] => .ok ""
  | .lit s :: rest => do
      let tail ← SafeFormat.vformat rest kwargs
      pure (s ++ tail)
  | .field n :: rest => do
      let v ← SafeFormat.get_field n kwargs
      let tail ← SafeFormat.vformat rest kwargs
      pure (pyStr v ++ tail)

/-- `"%012x" % n`: lower-case hex, zero-padded on the left to width 12. -/
def format012x (n : Nat) : String :=
  let s := (Nat.toDigits 16 n).asString
  String.mk (List.replicate (12 - s.length) '0') ++ s

/-- `get_hwaddr` (lines 202-208): format the node id with `"%012x"`, then
join the slices `mac[index:index+2]` for `index in range(len(mac)//2)`
with colons. -/
def get_hwaddr (node : Nat) : String :=
  let mac := format012x node
  String.intercalate ":"
    ((List.range (mac.length / 2)).map
      (fun index => ((mac.toList.drop index).take 2).asString))

/-- What the specification says the hardware address should look like: the
six bytes of the 48-bit node id as lower-case two-digit hex octets joined
by colons (slices starting at 0, 2, 4, 6, 8, 10). -/
def spec_hwaddr (node : Nat) : String :=
  let mac := format012x node
  String.intercalate ":"
    (([0, 2, 4, 6, 8, 10].map
      (fun index => ((mac.toList.drop index).take 2).asString)))

/-- Process-scoped state of `LogDNAHTTPIngestEndpoint` (lines 253-260):
sticky check-mode flag, current playbook name, sticky engine version,
random session id and the host identity cached at startup. -/
structure Session where
  ansible_check_mode : Bool
  ansible_playbook : String
  ansible_version : PyVal
  session : String
  host : String
  ip_address : String
  user : String
deriving DecidableEq, Repr

/-- The parts of an ansible result object that `send_logdna` and
`_handle_event` read: `result._task_fields`, `result._task._role` (a
role object rendered here as `.str` of its name, or `.none`),
`result._task._uuid`, `result._host.name` and `result._result`. -/
structure TaskResult where
  task_fields : PyDict
  role : PyVal
  uuid : String
  host_name : String
  result : PyDict
deriving DecidableEq, Repr

/-- The resolved configuration values `_handle_event` passes to
`send_logdna`, in the order of the source's parameter list.  The format
option is kept in parsed form; `Option.none` models a falsy
(unset or empty) `logdna_log_format`. -/
structure Conf where
  conf_appname : PyVal
  conf_endpoint : PyVal
  conf_disable_loglevel : PyVal
  conf_host : PyVal
  conf_hostname : PyVal
  conf_ingestion_key : PyVal
  conf_ip_addr : PyVal
  conf_log_fmt : Option (List FmtItem)
  conf_mac_addr : PyVal
  conf_tags : PyVal
  conf_timeout : PyVal
deriving DecidableEq, Repr

/-- The one HTTP POST `send_logdna` performs (lines 377-408), kept in
structured form: the pieces of the request URI
`https://{conf_host}{conf_endpoint}?hostname=..&now=..[&tags=..]`, the
JSON body (pre-serialization), and the auth/timeout arguments of
`open_url`. -/
structure Request where
  host : PyVal
  endpoint : PyVal
  hostname : PyVal
  now : PyVal
  tags : Option PyVal
  body : PyVal
  url_username : PyVal
  timeout : PyVal
deriving DecidableEq, Repr

/-- Python's `d[key]` subscript on a dict: the bound value, or a
`KeyError` when the key is absent. -/
def pyIndex (d : PyDict) (key : String) : Except PyErr PyVal :=
  match d.get? key with
  | some v => .ok v
  | Option.none => .error .keyError

/-- Timestamp selection (lines 282-286): when
`result._result.get('ansible_facts')` is truthy, evaluate
`result._result.get('ansible_facts', None).get('ansible_date_time',
None).get('iso8601', None)` — each inner `.get` raising
`AttributeError` when its receiver is not a dict — otherwise use the
preformatted current UTC time `iso_now`. -/
def computeTimestamp (res : PyDict) (iso_now : String) : Except PyErr PyVal :=
  if truthy (pyDictGet res "ansible_facts") then do
    let dt ← pyGet (pyDictGet res "ansible_facts") "ansible_date_time"
    pyGet dt "iso8601"
  else
    pure (.str iso_now)

/-- Lines 288-290: `if not conf_hostname: conf_hostname =
result._host.name`. -/
def effective_hostname (conf_hostname : PyVal) (target_host_name : String) : PyVal :=
  if ¬ truthy conf_hostname then .str target_host_name else conf_hostname

/-- The `loglevels` mapping (lines 361-366). -/
def loglevels : List (String × String) :=
  [("OK", "INFO"), ("SKIPPED", "WARN"), ("FAILED", "ERROR"), ("UNREACHABLE", "WARN")]

/-- `loglevels.get(state, 'UNKNOWN')` (line 368). -/
def loglevelFor (state : String) : String :=
  (loglevels.lookup state).getD "UNKNOWN"

/-- The default log format (lines 331-338), in parsed form. -/
def default_log_fmt : List FmtItem :=
  [.lit "status=", .field "status",
   .lit " action=", .field "action",
   .lit " changed=", .field "changed",
   .lit " play=", .field "playbook",
   .lit " role=", .field "role",
   .lit " host=", .field "host",
   .lit " name=", .field "name"]

/-- The `meta` dict literal of `send_logdna` (lines 292-307), before
pruning. -/
def build_meta (ansible_check_mode : Bool) (ansible_version ansible_role : PyVal)
    (sess : Session) (state : String) (result : TaskResult) (exectime : PyVal) :
    PyDict :=
  PyDict.ofList
    [("ansible_changed", pyDictGet result.result "changed"),
     ("ansible_check_mode", .bool ansible_check_mode),
     ("ansible_host", .str result.host_name),
     ("ansible_playbook", .str sess.ansible_playbook),
     ("ansible_result", .dict result.result),
     ("ansible_role", ansible_role),
     ("ansible_session", .str sess.session),
     ("ansible_status", .str state),
     ("ansible_task", .dict result.task_fields),
     ("ansible_version", ansible_version),
     ("ansible_execution_time", exectime),
     ("system_host", .str sess.host),
     ("system_ip", .str sess.ip_address),
     ("system_user", .str sess.user),
     ("uuid", .str result.uuid)]

/-- Python's `str.isspace` characters relevant to `str.strip()`:
space, tab, newline, carriage return, vertical tab, form feed. -/
def py_isspace (ch : Char) : Bool :=
  ch = ' ' || ch = '\t' || ch = '\n' || ch = '\r' || ch = '\x0b' || ch = '\x0c'

/-- Python's `str.strip()`: remove leading and trailing whitespace. -/
def pyStrip (s : String) : String :=
  (((s.toList.dropWhile py_isspace).reverse.dropWhile py_isspace).reverse).asString

/-- Python's `str.lower()` (ASCII; the strings involved are ASCII). -/
def pyLower (s : String) : String :=
  (s.toList.map Char.toLower).asString

/-- Python's `str.split(',')` on the character list: splits at every
comma, keeping empty chunks (`"".split(',') == ['']`). -/
def pySplitCommaChars : List Char → List Char → List String
  | [], acc => [acc.reverse.asString]
  | ch :: cs, acc =>
      if ch = ',' then acc.reverse.asString :: pySplitCommaChars cs []
      else pySplitCommaChars cs (ch :: acc)

/-- Python's `str.split(',')`. -/
def pySplitComma (s : String) : List String :=
  pySplitCommaChars s.toList []

/-- Intermediate state of `send_logdna` after the fallible extraction
steps: the chosen timestamp, the effective hostname, the pruned metadata
dict, and the keyword arguments handed to `SafeFormat`. -/
structure Prepared where
  timestamp : PyVal
  conf_hostname : PyVal
  meta : PyDict
  kwargs : List (String × PyVal)
deriving DecidableEq, Repr

/-- Lines 267-326 of `send_logdna`: sticky check-mode/version detection,
role stringification, timestamp selection, hostname defaulting, metadata
assembly and pruning, and extraction of the format fields. -/
def send_prepare (c : Conf) (sess : Session) (state : String)
    (result : TaskResult) (exectime : PyVal) (iso_now : String) :
    Except PyErr Prepared := do
  let args ← pyIndex result.task_fields "args"
  let check_mode_arg ← pyGet args "_ansible_check_mode"
  let ansible_check_mode := if truthy check_mode_arg then true else sess.ansible_check_mode
  let version_arg ← pyGet args "_ansible_version"
  let ansible_version := if truthy version_arg then version_arg else sess.ansible_version
  let ansible_role := if truthy result.role then PyVal.str (pyStr result.role) else PyVal.none
  let timestamp ← computeTimestamp result.result iso_now
  let conf_hostname := effective_hostname c.conf_hostname result.host_name
  let meta := build_meta ansible_check_mode ansible_version ansible_role
    sess state result exectime
  let meta := deleteEmptyDict meta
  let action ← pyGet (meta.getD "ansible_task" (.dict .nil)) "action"
  let changed := pyDictGet meta "ansible_changed"
  let host := pyDictGet meta "ansible_host"
  let name0 := pyDictGet result.task_fields "name"
  let name := if ¬ truthy name0 then PyVal.str "" else name0
  let playbook := pyDictGet meta "ansible_playbook"
  let role := pyDictGet meta "ansible_role"
  let status := pyDictGet meta "ansible_status"
  pure { timestamp := timestamp
         conf_hostname := conf_hostname
         meta := meta
         kwargs := [("action", action), ("changed", changed), ("host", host),
                    ("playbook", playbook), ("role", role), ("status", status),
                    ("name", name)] }

/-- The inner element of `logline['lines']` (lines 350-375): the base dict
literal followed by the conditional `level`, `ip` and `mac` key
assignments. -/
def logline_entry (log_message : String) (timestamp conf_appname : PyVal)
    (meta : PyDict) (conf_disable_loglevel : PyVal) (state : String)
    (conf_ip_addr conf_mac_addr : PyVal) : PyDict :=
  (PyDict.ofList
    [("line", .str log_message), ("timestamp", timestamp),
     ("app", conf_appname), ("meta", .dict meta)]).append
  ((if ¬ truthy conf_disable_loglevel then
      PyDict.ofList [("level", .str (loglevelFor state))]
    else .nil).append
   ((if truthy conf_ip_addr then PyDict.ofList [("ip", conf_ip_addr)] else .nil).append
    (if truthy conf_mac_addr then PyDict.ofList [("mac", conf_mac_addr)] else .nil)))

/-- `LogDNAHTTPIngestEndpoint.send_logdna` (lines 262-408): the whole
event-to-request pipeline.  `Except.error` models an escaping exception,
in which case `open_url` is never reached and no HTTP request is issued;
`Except.ok` carries the one request that is POSTed. -/
def send_logdna (c : Conf) (sess : Session) (state : String)
    (result : TaskResult) (exectime : PyVal) (iso_now : String)
    (datetime_now : PyVal) : Except PyErr Request := do
  let p ← send_prepare c sess state result exectime iso_now
  let fmt := match c.conf_log_fmt with
    | some f => f
    | Option.none => default_log_fmt
  let formatted ← SafeFormat.vformat fmt p.kwargs
  let log_message := pyStrip formatted
  let line := logline_entry log_message p.timestamp c.conf_appname p.meta
    c.conf_disable_loglevel state c.conf_ip_addr c.conf_mac_addr
  pure { host := c.conf_host
         endpoint := c.conf_endpoint
         hostname := p.conf_hostname
         now := datetime_now
         tags := if truthy c.conf_tags then some c.conf_tags else Option.none
         body := .dict (.cons "lines" (.list (.cons (.dict line) .nil)) .nil)
         url_username := c.conf_ingestion_key
         timeout := c.conf_timeout }

/-- `set_options` lines 499-503: the ignore-status option is lower-cased
and split on commas when truthy, else the empty list. -/
def parse_ignore_statuses (opt : Option String) : List String :=
  match opt with
  | some s => if s ≠ "" then pySplitComma (pyLower s) else []
  | Option.none => []

/-- `set_options` lines 505-521: the action/role/play ignore options are
split on commas when truthy, else the empty list (case preserved). -/
def parse_ignore_names (opt : Option String) : List String :=
  match opt with
  | some s => if s ≠ "" then pySplitComma s else []
  | Option.none => []

/-- `set_options` lines 493-497: when the use-target-host flag is falsy
the effective `conf_hostname` is the local hostname, clobbering any
configured `logdna_hostname`; when the flag is truthy it is whatever
`logdna_hostname` resolved to. -/
def set_options_hostname (conf_use_target_host conf_hostname_opt : PyVal)
    (local_hostname : String) : PyVal :=
  if ¬ truthy conf_use_target_host then .str local_hostname else conf_hostname_opt

/-- Python's `x in l` for a list of strings: string equality when `x` is a
string, `False` for any other value (`None`, bools etc. never equal a
str). -/
def pyInStrList (v : PyVal) (l : List String) : Bool :=
  match v with
  | .str s => l.contains s
  | _ => false

/-- `CallbackModule._handle_event` (lines 437-463): look up the event's
action/role/play, and call `send_logdna` unless one of them (or the
lower-cased status) is in its ignore-list.  `Option.none` models the
suppressed case: `send_logdna` — and hence `open_url` — is not invoked
and nothing else happens. -/
def handle_event (ignore_actions ignore_roles ignore_plays ignore_statuses : List String)
    (c : Conf) (sess : Session) (status : String) (result : TaskResult)
    (exectime : PyVal) (iso_now : String) (datetime_now : PyVal) :
    Option (Except PyErr Request) :=
  let action := pyDictGet result.task_fields "action"
  let role := result.role
  let play := sess.ansible_playbook
  if ¬ (pyInStrList action ignore_actions
        || pyInStrList role ignore_roles
        || ignore_plays.contains play
        || ignore_statuses.contains (pyLower status)) then
    some (send_logdna c sess status result exectime iso_now datetime_now)
  else
    Option.none

/-- All values bound to a key in a dict entry sequence (a faithfully
modelled Python dict binds each key at most once). -/
def PyDict.valsOf : PyDict → String → List PyVal
  | .nil, _ => []
  | .cons k v tl, key => if k = key then v :: tl.valsOf key else tl.valsOf key

/-- Concrete keyword arguments of the shape `send_logdna` passes to
`SafeFormat.format`: the seven fixed field names with sample values. -/
def kw0 : List (String × PyVal) :=
  [("action", .str "shell"), ("changed", .bool true), ("host", .str "web01"),
   ("playbook", .str "site.yml"), ("role", .none), ("status", .str "OK"),
   ("name", .str "install")]

/-- A concrete session fixture. -/
def sess0 : Session :=
  { ansible_check_mode := false
    ansible_playbook := "site.yml"
    ansible_version := .str ""
    session := "sess-1"
    host := "runner"
    ip_address := "10.0.0.5"
    user := "alice" }

/-- A concrete task-result fixture: a `shell` task against host `web01`
whose result reports `changed: False`. -/
def r0 : TaskResult :=
  { task_fields := PyDict.ofList
      [("args", .dict .nil), ("action", .str "shell"), ("name", .str "install")]
    role := .none
    uuid := "uuid-1"
    host_name := "web01"
    result := PyDict.ofList [("changed", .bool false)] }

/-- A concrete configuration fixture (defaults, no custom format). -/
def c0 : Conf :=
  { conf_appname := .str "ansible"
    conf_endpoint := .str "/logs/ingest"
    conf_disable_loglevel := .none
    conf_host := .str "logs.logdna.com"
    conf_hostname := .str "runner"
    conf_ingestion_key := .str "key"
    conf_ip_addr := .str "10.0.0.5"
    conf_log_fmt := Option.none
    conf_mac_addr := .str "aa:bb:cc:dd:ee:ff"
    conf_tags := .none
    conf_timeout := .int 5 }

/-- A truthy value for the use-target-host flag. -/
def useT0 : PyVal := .str "True"

/-- `c0` with the hostname resolved by `set_options` under a truthy
use-target-host flag and a configured `logdna_hostname` option. -/
def c9c : Conf :=
  { c0 with conf_hostname := set_options_hostname useT0 (.str "cfg-hostname") "runner" }

/-- `r0` with a result payload whose `ansible_facts` is present (truthy)
but carries no `ansible_date_time` entry. -/
def r1 : TaskResult :=
  { r0 with result := PyDict.ofList [("ansible_facts",
      .dict (PyDict.ofList [("distribution", .str "Ubuntu")]))] }

/-- The pruned metadata of the `c0`/`sess0`/`r0` event. -/
def meta0 : PyDict :=
  PyDict.ofList
    [("ansible_host", .str "web01"), ("ansible_playbook", .str "site.yml"),
     ("ansible_session", .str "sess-1"), ("ansible_status", .str "OK"),
     ("ansible_task", .dict (PyDict.ofList
        [("action", .str "shell"), ("name", .str "install")])),
     ("ansible_execution_time", .int 1), ("system_host", .str "runner"),
     ("system_ip", .str "10.0.0.5"), ("system_user", .str "alice"),
     ("uuid", .str "uuid-1")]

/-- The one line of the `c0`/`sess0`/`r0` request body. -/
def line0 : PyDict :=
  PyDict.ofList
    [("line", .str "status=OK action=shell changed=None play=site.yml role=None host=web01 name=install"),
     ("timestamp", .str "2021-01-01T00:00:00Z"), ("app", .str "ansible"),
     ("meta", .dict meta0), ("level", .str "INFO"), ("ip", .str "10.0.0.5"),
     ("mac", .str "aa:bb:cc:dd:ee:ff")]

/-- The request `send_logdna` produces for `c0`/`sess0`/`r0`. -/
def req0 : Request :=
  { host := .str "logs.logdna.com"
    endpoint := .str "/logs/ingest"
    hostname := .str "runner"
    now := .int 0
    tags := Option.none
    body := .dict (.cons "lines" (.list (.cons (.dict line0) .nil)) .nil)
    url_username := .str "key"
    timeout := .int 5 }

/-- The request for the same event under `c9c`. -/
def req9 : Request := { req0 with hostname := .str "cfg-hostname" }

/-- `c0` with a custom format template containing a forbidden `.`. -/
def c3c : Conf := { c0 with conf_log_fmt := some [FmtItem.field "a.b"] }

/-- `r0` running inside a role named `nginx`. -/
def r4 : TaskResult := { r0 with role := PyVal.str "nginx" }

theorem truthy_isEmptyish_false : ∀ {v : PyVal}, truthy v = true → isEmptyish v = false
  | .none, h => by simp [truthy] at h
  | .bool b, h => by simp [isEmptyish]
  | .int n, h => by simp [isEmptyish]
  | .str s, h => by
      simp [truthy] at h
      simp [isEmptyish, h]
  | .list .nil, h => by simp [truthy] at h
  | .list (.cons _ _), h => by simp [isEmptyish]
  | .dict .nil, h => by simp [truthy] at h
  | .dict (.cons _ _ _), h => by simp [isEmptyish]

theorem truthy_ne_false_zero : ∀ {v : PyVal},
    truthy v = true → v ≠ PyVal.bool false ∧ v ≠ PyVal.int 0
  | .none, h => by simp [truthy] at h
  | .bool b, h => by
      simp [truthy] at h
      simp [h]
  | .int n, h => by
      simp [truthy] at h
      simp [h]
  | .str s, h => by simp
  | .list l, h => by simp
  | .dict d, h => by simp

mutual

theorem allTruthy_delete : ∀ (v : PyVal), allValsTruthy (delete_empty_values v) = true
  | .none => rfl
  | .bool _ => rfl
  | .int _ => rfl
  | .str _ => rfl
  | .list l => by
      simpa [delete_empty_values, allValsTruthy] using allTruthy_deleteList l
  | .dict d => by
      simpa [delete_empty_values, allValsTruthy] using allTruthy_deleteDict d

theorem allTruthy_deleteList : ∀ (l : PyList), allValsTruthyList (deleteEmptyList l) = true
  | .nil => rfl
  | .cons v vs => by
      have hv := allTruthy_delete v
      have hvs := allTruthy_deleteList vs
      cases h : truthy (delete_empty_values v)
      · simpa [deleteEmptyList, h] using hvs
      · simp [deleteEmptyList, h, allValsTruthyList, hv, hvs]

theorem allTruthy_deleteDict : ∀ (d : PyDict), allValsTruthyDict (deleteEmptyDict d) = true
  | .nil => rfl
  | .cons k v kvs => by
      have hv := allTruthy_delete v
      have hvs := allTruthy_deleteDict kvs
      cases h : truthy (delete_empty_values v)
      · simpa [deleteEmptyDict, h] using hvs
      · simp [deleteEmptyDict, h, allValsTruthyDict, hv, hvs]

end

mutual

theorem delete_of_allTruthy : ∀ (v : PyVal), allValsTruthy v = true → delete_empty_values v = v
  | .none, _ => rfl
  | .bool _, _ => rfl
  | .int _, _ => rfl
  | .str _, _ => rfl
  | .list l, h => by
      simp [allValsTruthy] at h
      simp [delete_empty_values, deleteList_of_allTruthy l h]
  | .dict d, h => by
      simp [allValsTruthy] at h
      simp [delete_empty_values, deleteDict_of_allTruthy d h]

theorem deleteList_of_allTruthy : ∀ (l : PyList), allValsTruthyList l = true → deleteEmptyList l = l
  | .nil, _ => rfl
  | .cons v vs, h => by
      simp [allValsTruthyList] at h
      obtain ⟨⟨h1, h2⟩, h3⟩ := h
      simp [deleteEmptyList, delete_of_allTruthy v h2, h1, deleteList_of_allTruthy vs h3]

theorem deleteDict_of_allTruthy : ∀ (d : PyDict), allValsTruthyDict d = true → deleteEmptyDict d = d
  | .nil, _ => rfl
  | .cons k v kvs, h => by
      simp [allValsTruthyDict] at h
      obtain ⟨⟨h1, h2⟩, h3⟩ := h
      simp [deleteEmptyDict, delete_of_allTruthy v h2, h1, deleteDict_of_allTruthy kvs h3]

end

mutual

theorem noEmpty_of_allTruthy : ∀ (v : PyVal), allValsTruthy v = true → noEmptyVals v = true
  | .none, _ => rfl
  | .bool _, _ => rfl
  | .int _, _ => rfl
  | .str _, _ => rfl
  | .list l, h => by
      simp [allValsTruthy] at h
      simpa [noEmptyVals] using noEmptyList_of_allTruthy l h
  | .dict d, h => by
      simp [allValsTruthy] at h
      simpa [noEmptyVals] using noEmptyDict_of_allTruthy d h

theorem noEmptyList_of_allTruthy : ∀ (l : PyList), allValsTruthyList l = true → noEmptyValsList l = true
  | .nil, _ => rfl
  | .cons v vs, h => by
      simp [allValsTruthyList] at h
      obtain ⟨⟨h1, h2⟩, h3⟩ := h
      simp [noEmptyValsList, truthy_isEmptyish_false h1,
        noEmpty_of_allTruthy v h2, noEmptyList_of_allTruthy vs h3]

theorem noEmptyDict_of_allTruthy : ∀ (d : PyDict), allValsTruthyDict d = true → noEmptyValsDict d = true
  | .nil, _ => rfl
  | .cons k v kvs, h => by
      simp [allValsTruthyDict] at h
      obtain ⟨⟨h1, h2⟩, h3⟩ := h
      simp [noEmptyValsDict, truthy_isEmptyish_false h1,
        noEmpty_of_allTruthy v h2, noEmptyDict_of_allTruthy kvs h3]

end

mutual

theorem noFalseZero_of_allTruthy : ∀ (v : PyVal), allValsTruthy v = true → noFalseZeroVals v = true
  | .none, _ => rfl
  | .bool _, _ => rfl
  | .int _, _ => rfl
  | .str _, _ => rfl
  | .list l, h => by
      simp [allValsTruthy] at h
      simpa [noFalseZeroVals] using noFalseZeroList_of_allTruthy l h
  | .dict d, h => by
      simp [allValsTruthy] at h
      simpa [noFalseZeroVals] using noFalseZeroDict_of_allTruthy d h

theorem noFalseZeroList_of_allTruthy : ∀ (l : PyList),
    allValsTruthyList l = true → noFalseZeroValsList l = true
  | .nil, _ => rfl
  | .cons v vs, h => by
      simp [allValsTruthyList] at h
      obtain ⟨⟨h1, h2⟩, h3⟩ := h
      simp [noFalseZeroValsList, (truthy_ne_false_zero h1).1, (truthy_ne_false_zero h1).2,
        noFalseZero_of_allTruthy v h2, noFalseZeroList_of_allTruthy vs h3]

theorem noFalseZeroDict_of_allTruthy : ∀ (d : PyDict),
    allValsTruthyDict d = true → noFalseZeroValsDict d = true
  | .nil, _ => rfl
  | .cons k v kvs, h => by
      simp [allValsTruthyDict] at h
      obtain ⟨⟨h1, h2⟩, h3⟩ := h
      simp [noFalseZeroValsDict, (truthy_ne_false_zero h1).1, (truthy_ne_false_zero h1).2,
        noFalseZero_of_allTruthy v h2, noFalseZeroDict_of_allTruthy kvs h3]

end

theorem get?_deleteEmptyDict_none : ∀ (d : PyDict) (k : String),
    (∀ v ∈ d.valsOf k, truthy (delete_empty_values v) = false) →
    (deleteEmptyDict d).get? k = Option.none
  | .nil, _, _ => rfl
  | .cons k' v tl, k, h => by
      by_cases hk : k' = k
      · subst hk
        have hv : truthy (delete_empty_values v) = false := by
          refine h v ?_
          simp [PyDict.valsOf]
        simp only [deleteEmptyDict, hv, if_false, Bool.false_eq_true]
        exact get?_deleteEmptyDict_none tl k' (fun w hw => h w (by simp [PyDict.valsOf, hw]))
      · have htl : ∀ w ∈ tl.valsOf k, truthy (delete_empty_values w) = false := by
          intro w hw
          refine h w ?_
          simp [PyDict.valsOf, hk, hw]
        cases hv : truthy (delete_empty_values v)
        · simp only [deleteEmptyDict, hv, if_false, Bool.false_eq_true]
          exact get?_deleteEmptyDict_none tl k htl
        · simp only [deleteEmptyDict, hv, if_true]
          simp [PyDict.get?, hk]
          exact get?_deleteEmptyDict_none tl k htl

/-- C5: for every input value, the result of the recursive pruning step
contains no empty-string, empty-mapping, empty-sequence or null values at
any nesting depth. -/
theorem c5_pruned_has_no_empty_values (v : PyVal) :
    noEmptyVals (delete_empty_values v) = true :=
  noEmpty_of_allTruthy _ (allTruthy_delete v)

/-- C6: the recursive pruning function is idempotent — pruning the result
of pruning yields the same value as pruning once (for every value, in
particular for every mapping). -/
theorem c6_prune_idempotent (v : PyVal) :
    delete_empty_values (delete_empty_values v) = delete_empty_values v :=
  delete_of_allTruthy _ (allTruthy_delete v)

/-- C10: the pruning step removes every falsy value, not only empty or
null ones — no value bound at any nesting depth of the pruned result is
`False` or `0`; in particular the metadata dict built by `send_logdna`
carries no `ansible_changed` key when the event's changed flag is
`False`, and no `ansible_check_mode` key when the check-mode flag is
`False`. -/
theorem c10_prune_removes_falsy :
    (∀ v : PyVal, noFalseZeroVals (delete_empty_values v) = true)
    ∧ (∀ (cm : Bool) (ver role : PyVal) (sess : Session) (state : String)
        (result : TaskResult) (exectime : PyVal),
        pyDictGet result.result "changed" = PyVal.bool false →
        (deleteEmptyDict (build_meta cm ver role sess state result exectime)).get?
          "ansible_changed" = Option.none)
    ∧ (∀ (ver role : PyVal) (sess : Session) (state : String)
        (result : TaskResult) (exectime : PyVal),
        (deleteEmptyDict (build_meta false ver role sess state result exectime)).get?
          "ansible_check_mode" = Option.none) := by
  refine ⟨fun v => noFalseZero_of_allTruthy _ (allTruthy_delete v), ?_, ?_⟩
  · intro cm ver role sess state result exectime h
    refine get?_deleteEmptyDict_none _ _ ?_
    intro v hv
    simp [build_meta, PyDict.ofList, PyDict.valsOf] at hv
    subst hv
    simp [h, delete_empty_values, truthy]
  · intro ver role sess state result exectime
    refine get?_deleteEmptyDict_none _ _ ?_
    intro v hv
    simp [build_meta, PyDict.ofList, PyDict.valsOf] at hv
    subst hv
    simp [delete_empty_values, truthy]

theorem except_error_bind {α β : Type} (e : PyErr) (f : α → Except PyErr β) :
    (Except.error e >>= f) = Except.error e := rfl

theorem except_ok_bind {α β : Type} (a : α) (f : α → Except PyErr β) :
    (Except.ok a >>= f) = f a := rfl

theorem except_bind_ok {α β : Type} {x : Except PyErr α} {f : α → Except PyErr β} {b : β}
    (h : (x >>= f) = Except.ok b) : ∃ a, x = Except.ok a ∧ f a = Except.ok b := by
  cases x with
  | error e => exact absurd h (by simp [except_error_bind])
  | ok a => exact ⟨a, rfl, h⟩

theorem lookup_none_of_not_mem : ∀ (kw : List (String × PyVal)) (n : String),
    n ∉ kw.map Prod.fst → List.lookup n kw = Option.none
  | [], _, _ => rfl
  | (k, v) :: tl, n, h => by
      simp only [List.map, List.mem_cons, not_or] at h
      simp only [List.lookup, beq_eq_false_iff_ne.mpr h.1, if_false]
      exact lookup_none_of_not_mem tl n h.2

theorem lookup_some_of_mem : ∀ (kw : List (String × PyVal)) (n : String),
    n ∈ kw.map Prod.fst → ∃ v, List.lookup n kw = some v
  | [], n, h => by simp at h
  | (k, v) :: tl, n, h => by
      by_cases hk : n = k
      · exact ⟨v, by simp [List.lookup, hk]⟩
      · have hmem : n ∈ tl.map Prod.fst := by
          simp only [List.map, List.mem_cons] at h
          tauto
        obtain ⟨w, hw⟩ := lookup_some_of_mem tl n hmem
        exact ⟨w, by simp [List.lookup, beq_eq_false_iff_ne.mpr hk, hw]⟩

/-- C2 (counterexample): formatting the template `"{foo}"` — a single
placeholder outside the fixed field set with none of the forbidden
characters — raises `KeyError` instead of rendering the placeholder as
the empty string. -/
theorem c2_unknown_placeholder_raises :
    SafeFormat.vformat [FmtItem.field "foo"] kw0 = Except.error PyErr.keyError := rfl

/-- C2 (amended): for every template whose placeholder names are all
outside the fixed field set and contain none of `.`, `[`, `(`, if the
template has at least one placeholder the formatter raises — `KeyError`
for a named placeholder, `IndexError` for an empty or all-digit
(positional) one — rather than rendering unknown placeholders as empty
strings. -/
theorem c2_unknown_placeholders_error :
    ∀ (t : List FmtItem) (kw : List (String × PyVal)),
      kw.map Prod.fst = fixed_field_names →
      (∃ n, FmtItem.field n ∈ t) →
      (∀ n, FmtItem.field n ∈ t → n ∉ fixed_field_names ∧ has_forbidden_char n = false) →
      ∃ e, SafeFormat.vformat t kw = Except.error e
        ∧ (e = PyErr.keyError ∨ e = PyErr.indexError) := by
  intro t
  induction t with
  | nil =>
      intro kw _ hex _
      obtain ⟨n, hn⟩ := hex
      simp at hn
  | cons it rest ih =>
      intro kw hkw hex hall
      match it with
      | .lit s =>
          have hex' : ∃ n, FmtItem.field n ∈ rest := by
            obtain ⟨n, hn⟩ := hex
            simp only [List.mem_cons] at hn
            exact ⟨n, hn.resolve_left (by simp)⟩
          obtain ⟨e, he, hor⟩ :=
            ih kw hkw hex' (fun n hn => hall n (List.mem_cons_of_mem _ hn))
          exact ⟨e, by simp [SafeFormat.vformat, he, except_error_bind], hor⟩
      | .field n =>
          obtain ⟨hnot, hbad⟩ := hall n (List.mem_cons_self _ _)
          by_cases hidx : n = "" ∨ ∀ x ∈ n.data, x.isDigit = true
          · refine ⟨.indexError, ?_, Or.inr rfl⟩
            simp [SafeFormat.vformat, SafeFormat.get_field, hbad, hidx, except_error_bind]
          · have hlk : List.lookup n kw = Option.none :=
              lookup_none_of_not_mem kw n (by rw [hkw]; exact hnot)
            refine ⟨.keyError, ?_, Or.inl rfl⟩
            simp [SafeFormat.vformat, SafeFormat.get_field, hbad, hidx, hlk, except_error_bind]

theorem vformat_error_of_forbidden : ∀ (t : List FmtItem) (kw : List (String × PyVal)),
    (∃ n, FmtItem.field n ∈ t ∧ has_forbidden_char n = true) →
    ∃ e, SafeFormat.vformat t kw = Except.error e
  | [], kw, h => by
      obtain ⟨n, hn, _⟩ := h
      simp at hn
  | .lit s :: rest, kw, h => by
      have h' : ∃ n, FmtItem.field n ∈ rest ∧ has_forbidden_char n = true := by
        obtain ⟨n, hn, hb⟩ := h
        simp only [List.mem_cons] at hn
        exact ⟨n, hn.resolve_left (by simp), hb⟩
      obtain ⟨e, he⟩ := vformat_error_of_forbidden rest kw h'
      exact ⟨e, by simp [SafeFormat.vformat, he, except_error_bind]⟩
  | .field m :: rest, kw, h => by
      cases hgf : SafeFormat.get_field m kw with
      | error e =>
          exact ⟨e, by simp [SafeFormat.vformat, hgf, except_error_bind]⟩
      | ok v =>
          have hm : has_forbidden_char m = false := by
            by_contra hb
            rw [Bool.not_eq_false] at hb
            simp [SafeFormat.get_field, hb] at hgf
          have h' : ∃ n, FmtItem.field n ∈ rest ∧ has_forbidden_char n = true := by
            obtain ⟨n, hn, hb⟩ := h
            simp only [List.mem_cons] at hn
            refine ⟨n, hn.resolve_left ?_, hb⟩
            intro heq
            cases heq
            exact absurd hb (by simp [hm])
          obtain ⟨e, he⟩ := vformat_error_of_forbidden rest kw h'
          exact ⟨e, by simp [SafeFormat.vformat, hgf, he, except_ok_bind, except_error_bind]⟩

theorem fixed_name_not_positional {n : String} (h : n ∈ fixed_field_names) :
    ¬ (n = "" ∨ ∀ x ∈ n.data, x.isDigit = true) := by
  simp only [fixed_field_names, List.mem_cons, List.not_mem_nil, or_false] at h
  rcases h with rfl | rfl | rfl | rfl | rfl | rfl | rfl <;> decide

theorem fixed_name_not_forbidden {n : String} (h : n ∈ fixed_field_names) :
    has_forbidden_char n = false := by
  simp only [fixed_field_names, List.mem_cons, List.not_mem_nil, or_false] at h
  rcases h with rfl | rfl | rfl | rfl | rfl | rfl | rfl <;> decide

theorem vformat_formatError_of_rest_resolvable :
    ∀ (t : List FmtItem) (kw : List (String × PyVal)),
    kw.map Prod.fst = fixed_field_names →
    (∃ n, FmtItem.field n ∈ t ∧ has_forbidden_char n = true) →
    (∀ n, FmtItem.field n ∈ t → has_forbidden_char n = true ∨ n ∈ fixed_field_names) →
    SafeFormat.vformat t kw = Except.error PyErr.formatError
  | [], kw, _, hex, _ => by
      obtain ⟨n, hn, _⟩ := hex
      simp at hn
  | .lit s :: rest, kw, hkw, hex, hall => by
      have hex' : ∃ n, FmtItem.field n ∈ rest ∧ has_forbidden_char n = true := by
        obtain ⟨n, hn, hb⟩ := hex
        simp only [List.mem_cons] at hn
        exact ⟨n, hn.resolve_left (by simp), hb⟩
      have hrec := vformat_formatError_of_rest_resolvable rest kw hkw hex'
        (fun n hn => hall n (List.mem_cons_of_mem _ hn))
      simp [SafeFormat.vformat, hrec, except_error_bind]
  | .field m :: rest, kw, hkw, hex, hall => by
      cases hbm : has_forbidden_char m with
      | true =>
          have : SafeFormat.get_field m kw = Except.error PyErr.formatError := by
            simp [SafeFormat.get_field, hbm]
          simp [SafeFormat.vformat, this, except_error_bind]
      | false =>
          have hmem : m ∈ fixed_field_names :=
            ((hall m (List.mem_cons_self _ _)).resolve_left (by simp [hbm]))
          have hpos := fixed_name_not_positional hmem
          obtain ⟨v, hv⟩ := lookup_some_of_mem kw m (by rw [hkw]; exact hmem)
          have hgf : SafeFormat.get_field m kw = Except.ok v := by
            simp [SafeFormat.get_field, hbm, hpos, hv]
          have hex' : ∃ n, FmtItem.field n ∈ rest ∧ has_forbidden_char n = true := by
            obtain ⟨n, hn, hb⟩ := hex
            simp only [List.mem_cons] at hn
            refine ⟨n, hn.resolve_left ?_, hb⟩
            intro heq
            cases heq
            exact absurd hb (by simp [hbm])
          have hrec := vformat_formatError_of_rest_resolvable rest kw hkw hex'
            (fun n hn => hall n (List.mem_cons_of_mem _ hn))
          simp [SafeFormat.vformat, hgf, hrec, except_ok_bind, except_error_bind]

/-- C3 (counterexample): the template `"{zzz}{a.b}"` contains `.` inside
a placeholder expression, but formatting it raises `KeyError` (from the
earlier unknown placeholder `zzz`), not the `SafeFormat` rejection
(`FormatError`); so "raises a FormatError" does not hold for every such
template. -/
theorem c3_error_not_always_formatError :
    SafeFormat.vformat [FmtItem.field "zzz", FmtItem.field "a.b"] kw0
      = Except.error PyErr.keyError
    ∧ PyErr.keyError ≠ PyErr.formatError := by
  exact ⟨rfl, by decide⟩

/-- C3 (amended): for every format template containing `.`, `[` or `(`
inside a placeholder expression, formatting raises an exception — so
`send_logdna` escapes before `open_url` and no HTTP request is issued —
and the exception is the `SafeFormat` rejection (FormatError) whenever
every placeholder before the offending one resolves, in particular when
all other placeholders are drawn from the fixed field set. -/
theorem c3_forbidden_placeholder_blocks_send :
    (∀ (t : List FmtItem) (c : Conf) (sess : Session) (state : String)
       (result : TaskResult) (exectime : PyVal) (iso_now : String) (dt : PyVal),
       c.conf_log_fmt = some t →
       (∃ n, FmtItem.field n ∈ t ∧ has_forbidden_char n = true) →
       ∃ e, send_logdna c sess state result exectime iso_now dt = Except.error e)
    ∧ (∀ (t : List FmtItem) (kw : List (String × PyVal)),
       kw.map Prod.fst = fixed_field_names →
       (∃ n, FmtItem.field n ∈ t ∧ has_forbidden_char n = true) →
       (∀ n, FmtItem.field n ∈ t → has_forbidden_char n = true ∨ n ∈ fixed_field_names) →
       SafeFormat.vformat t kw = Except.error PyErr.formatError) := by
  constructor
  · intro t c sess state result exectime iso_now dt hfmt hbad
    cases hp : send_prepare c sess state result exectime iso_now with
    | error e =>
        exact ⟨e, by simp [send_logdna, hp, except_error_bind]⟩
    | ok p =>
        obtain ⟨e, he⟩ := vformat_error_of_forbidden t p.kwargs hbad
        exact ⟨e, by simp [send_logdna, hp, hfmt, he, except_ok_bind, except_error_bind]⟩
  · intro t kw hkw hex hall
    exact vformat_formatError_of_rest_resolvable t kw hkw hex hall

/-- C4: a terminal event is suppressed — `handle_event` returns nothing
and `send_logdna` (hence the ingest POST) is never invoked — exactly when
the lower-cased status is in the parsed ignore-status list, or the
action, role or play exactly matches an entry of its parsed ignore-list;
an unset ignore option parses to the empty list, which matches nothing. -/
theorem c4_suppression_iff :
    (∀ (optA optR optP optS : Option String) (c : Conf) (sess : Session)
       (status : String) (result : TaskResult) (exectime : PyVal)
       (iso_now : String) (dt : PyVal) (action role : String),
       pyDictGet result.task_fields "action" = PyVal.str action →
       result.role = PyVal.str role →
       (handle_event (parse_ignore_names optA) (parse_ignore_names optR)
          (parse_ignore_names optP) (parse_ignore_statuses optS)
          c sess status result exectime iso_now dt = Option.none
        ↔ (pyLower status ∈ parse_ignore_statuses optS
           ∨ action ∈ parse_ignore_names optA
           ∨ role ∈ parse_ignore_names optR
           ∨ sess.ansible_playbook ∈ parse_ignore_names optP)))
    ∧ parse_ignore_names Option.none = []
    ∧ parse_ignore_statuses Option.none = [] := by
  refine ⟨?_, rfl, rfl⟩
  intro optA optR optP optS c sess status result exectime iso_now dt action role haction hrole
  simp only [handle_event, haction, hrole, pyInStrList]
  by_cases h1 : action ∈ parse_ignore_names optA <;>
    by_cases h2 : role ∈ parse_ignore_names optR <;>
    by_cases h3 : sess.ansible_playbook ∈ parse_ignore_names optP <;>
    by_cases h4 : pyLower status ∈ parse_ignore_statuses optS <;>
    simp [h1, h2, h3, h4]

theorem send_prepare_ok_hostname {c : Conf} {sess : Session} {state : String}
    {result : TaskResult} {exectime : PyVal} {iso_now : String} {p : Prepared}
    (h : send_prepare c sess state result exectime iso_now = Except.ok p) :
    p.conf_hostname = effective_hostname c.conf_hostname result.host_name := by
  unfold send_prepare at h
  obtain ⟨args, h1, h⟩ := except_bind_ok h
  obtain ⟨cma, h2, h⟩ := except_bind_ok h
  obtain ⟨vva, h3, h⟩ := except_bind_ok h
  obtain ⟨ts, h4, h⟩ := except_bind_ok h
  obtain ⟨act, h5, h⟩ := except_bind_ok h
  simp only [pure, Except.pure, Except.ok.injEq] at h
  subst h
  rfl

theorem send_prepare_ok_meta {c : Conf} {sess : Session} {state : String}
    {result : TaskResult} {exectime : PyVal} {iso_now : String} {p : Prepared}
    (h : send_prepare c sess state result exectime iso_now = Except.ok p) :
    ∃ (cm : Bool) (ver role : PyVal),
      p.meta = deleteEmptyDict (build_meta cm ver role sess state result exectime) := by
  unfold send_prepare at h
  obtain ⟨args, h1, h⟩ := except_bind_ok h
  obtain ⟨cma, h2, h⟩ := except_bind_ok h
  obtain ⟨vva, h3, h⟩ := except_bind_ok h
  obtain ⟨ts, h4, h⟩ := except_bind_ok h
  obtain ⟨act, h5, h⟩ := except_bind_ok h
  simp only [pure, Except.pure, Except.ok.injEq] at h
  subst h
  exact ⟨_, _, _, rfl⟩

theorem send_logdna_ok_inv {c : Conf} {sess : Session} {state : String}
    {result : TaskResult} {exectime : PyVal} {iso_now : String} {dt : PyVal}
    {req : Request}
    (h : send_logdna c sess state result exectime iso_now dt = Except.ok req) :
    ∃ (p : Prepared) (formatted : String),
      send_prepare c sess state result exectime iso_now = Except.ok p
      ∧ SafeFormat.vformat (c.conf_log_fmt.getD default_log_fmt) p.kwargs
          = Except.ok formatted
      ∧ req = { host := c.conf_host
                endpoint := c.conf_endpoint
                hostname := p.conf_hostname
                now := dt
                tags := if truthy c.conf_tags then some c.conf_tags else Option.none
                body := PyVal.dict (.cons "lines"
                  (.list (.cons (.dict (logline_entry (pyStrip formatted)
                    p.timestamp c.conf_appname p.meta c.conf_disable_loglevel
                    state c.conf_ip_addr c.conf_mac_addr)) .nil)) .nil)
                url_username := c.conf_ingestion_key
                timeout := c.conf_timeout } := by
  unfold send_logdna at h
  obtain ⟨p, hp, h⟩ := except_bind_ok h
  obtain ⟨formatted, hf, h⟩ := except_bind_ok h
  simp only [pure, Except.pure, Except.ok.injEq] at h
  subst h
  refine ⟨p, formatted, hp, ?_, rfl⟩
  cases hlf : c.conf_log_fmt with
  | none => simpa [hlf, Option.getD] using hf
  | some f => simpa [hlf, Option.getD] using hf

theorem logline_entry_get_level (msg : String) (ts app : PyVal) (meta : PyDict)
    (dis : PyVal) (state : String) (ip mac : PyVal) :
    (logline_entry msg ts app meta dis state ip mac).get? "level"
      = if truthy dis then Option.none else some (PyVal.str (loglevelFor state)) := by
  cases hd : truthy dis <;> cases hi : truthy ip <;> cases hm : truthy mac <;>
    simp [logline_entry, PyDict.ofList, PyDict.append, PyDict.get?, hd, hi, hm]

/-- C8: for every delivered event, the outbound body is one line whose
`level` entry is `loglevels.get(state, 'UNKNOWN')` when the log-level
toggle is not disabled — INFO for OK, WARN for SKIPPED, ERROR for FAILED,
WARN for UNREACHABLE, UNKNOWN for anything else — and is absent
altogether when the toggle is disabled. -/
theorem c8_level_mapping :
    (∀ (c : Conf) (sess : Session) (state : String) (result : TaskResult)
       (exectime : PyVal) (iso_now : String) (dt : PyVal) (req : Request),
       send_logdna c sess state result exectime iso_now dt = Except.ok req →
       ∃ line, req.body = PyVal.dict (.cons "lines" (.list (.cons (.dict line) .nil)) .nil)
         ∧ line.get? "level" = (if truthy c.conf_disable_loglevel then Option.none
                                else some (PyVal.str (loglevelFor state))))
    ∧ loglevelFor "OK" = "INFO"
    ∧ loglevelFor "SKIPPED" = "WARN"
    ∧ loglevelFor "FAILED" = "ERROR"
    ∧ loglevelFor "UNREACHABLE" = "WARN"
    ∧ (∀ s, s ∉ ["OK", "SKIPPED", "FAILED", "UNREACHABLE"] → loglevelFor s = "UNKNOWN") := by
  refine ⟨?_, rfl, rfl, rfl, rfl, ?_⟩
  · intro c sess state result exectime iso_now dt req h
    obtain ⟨p, formatted, hp, hf, hreq⟩ := send_logdna_ok_inv h
    subst hreq
    exact ⟨_, rfl, logline_entry_get_level _ _ _ _ _ _ _ _⟩
  · intro s hs
    simp only [List.mem_cons, List.not_mem_nil, or_false, not_or] at hs
    obtain ⟨h1, h2, h3, h4⟩ := hs
    simp [loglevelFor, loglevels, List.lookup,
      beq_eq_false_iff_ne.mpr h1, beq_eq_false_iff_ne.mpr h2,
      beq_eq_false_iff_ne.mpr h3, beq_eq_false_iff_ne.mpr h4]

/-- C9 (counterexample): with the use-target-host flag truthy and a
configured `logdna_hostname`, the outbound hostname parameter is the
configured value, not the per-event target host name (`web01`). -/
theorem c9_hostname_counterexample :
    truthy useT0 = true
    ∧ (send_logdna c9c sess0 "OK" r0 (PyVal.int 1) "2021-01-01T00:00:00Z"
        (PyVal.int 0)).map Request.hostname = Except.ok (PyVal.str "cfg-hostname")
    ∧ r0.host_name = "web01"
    ∧ PyVal.str "cfg-hostname" ≠ PyVal.str "web01" :=
  ⟨rfl, rfl, rfl, by decide⟩

/-- C9 (amended): the hostname query parameter of a delivered request is
the configured `logdna_hostname` when the use-target-host flag is truthy
and that option is set; the per-event target host name when the flag is
truthy and the option is unset or empty; and the locally cached system
hostname otherwise (falling back to the target host name in the
degenerate case of an empty cached hostname). -/
theorem c9_hostname_amended :
    ∀ (use_target host_opt : PyVal) (local_hostname : String) (c : Conf)
      (sess : Session) (state : String) (result : TaskResult) (exectime : PyVal)
      (iso_now : String) (dt : PyVal) (req : Request),
      c.conf_hostname = set_options_hostname use_target host_opt local_hostname →
      send_logdna c sess state result exectime iso_now dt = Except.ok req →
      req.hostname =
        (if truthy use_target then
           (if truthy host_opt then host_opt else PyVal.str result.host_name)
         else
           (if local_hostname ≠ "" then PyVal.str local_hostname
            else PyVal.str result.host_name)) := by
  intro use_target host_opt local_hostname c sess state result exectime iso_now dt req hch h
  obtain ⟨p, formatted, hp, hf, hreq⟩ := send_logdna_ok_inv h
  subst hreq
  have hh := send_prepare_ok_hostname hp
  show p.conf_hostname = _
  rw [hh, hch]
  cases hu : truthy use_target with
  | false =>
      by_cases hl : local_hostname = ""
      · subst hl
        have hts : truthy (PyVal.str "") = false := rfl
        simp [set_options_hostname, effective_hostname, hu, hts]
      · have hts : truthy (PyVal.str local_hostname) = true := by
          simp [truthy, hl]
        simp [set_options_hostname, effective_hostname, hu, hts, hl]
  | true =>
      cases ho : truthy host_opt with
      | false => simp [set_options_hostname, effective_hostname, hu, ho]
      | true => simp [set_options_hostname, effective_hostname, hu, ho]

/-- C1: the timestamp build is not total.  When the result payload has
truthy `ansible_facts` without an `ansible_date_time` entry, the chained
`.get` calls raise `AttributeError` (``None`` has no `.get`), aborting
`send_logdna` instead of falling back to the current UTC time; when
`ansible_date_time` is present without `iso8601`, the emitted timestamp
is null.  Only when the nested `iso8601` value exists is it used, as the
claim describes. -/
theorem c1_timestamp_chain_crashes :
    computeTimestamp (PyDict.ofList
        [("ansible_facts", .dict (PyDict.ofList [("distribution", .str "Ubuntu")]))])
        "2021-01-01T00:00:00Z"
      = Except.error PyErr.attributeError
    ∧ computeTimestamp (PyDict.ofList
        [("ansible_facts", .dict (PyDict.ofList
          [("ansible_date_time", .dict (PyDict.ofList [("date", .str "2021-01-01")]))]))])
        "2021-01-01T00:00:00Z"
      = Except.ok PyVal.none
    ∧ computeTimestamp (PyDict.ofList
        [("ansible_facts", .dict (PyDict.ofList
          [("ansible_date_time", .dict (PyDict.ofList
            [("iso8601", .str "2021-01-01T00:00:00Z")]))]))])
        "2020-12-31T23:59:59Z"
      = Except.ok (PyVal.str "2021-01-01T00:00:00Z")
    ∧ send_logdna c0 sess0 "OK" r1 (PyVal.int 1) "2021-01-01T00:00:00Z" (PyVal.int 0)
      = Except.error PyErr.attributeError :=
  ⟨rfl, rfl, rfl, rfl⟩

/-- C7: `get_hwaddr` does not render the six octets of the node id — its
slice starts run 0,1,2,3,4,5 instead of 0,2,4,6,8,10, producing
overlapping two-character slices of the first half of the hex string.
For node id `0xaabbccddeeff` the code yields `aa:ab:bb:bc:cc:cd`, not the
specified `aa:bb:cc:dd:ee:ff`. -/
theorem c7_hwaddr_overlapping_slices :
    get_hwaddr 0xaabbccddeeff = "aa:ab:bb:bc:cc:cd"
    ∧ spec_hwaddr 0xaabbccddeeff = "aa:bb:cc:dd:ee:ff"
    ∧ get_hwaddr 0xaabbccddeeff ≠ spec_hwaddr 0xaabbccddeeff :=
  ⟨rfl, rfl, by decide⟩

theorem c2_unknown_placeholders_error_witness :
    List.map Prod.fst kw0 = fixed_field_names
    ∧ (∃ e, SafeFormat.vformat [FmtItem.field "foo"] kw0 = Except.error e
        ∧ (e = PyErr.keyError ∨ e = PyErr.indexError)) :=
  ⟨rfl, c2_unknown_placeholders_error [FmtItem.field "foo"] kw0 rfl
      ⟨"foo", by decide⟩
      (by
        intro n hn
        simp only [List.mem_cons, List.not_mem_nil, or_false, FmtItem.field.injEq] at hn
        subst hn
        exact ⟨by decide, rfl⟩)⟩

theorem c3_forbidden_placeholder_blocks_send_witness :
    (∃ e, send_logdna c3c sess0 "OK" r0 (PyVal.int 1) "2021-01-01T00:00:00Z" (PyVal.int 0)
        = Except.error e)
    ∧ SafeFormat.vformat [FmtItem.field "a.b"] kw0 = Except.error PyErr.formatError :=
  ⟨c3_forbidden_placeholder_blocks_send.1 [FmtItem.field "a.b"] c3c sess0 "OK" r0
      (PyVal.int 1) "2021-01-01T00:00:00Z" (PyVal.int 0) rfl ⟨"a.b", by decide, rfl⟩,
   c3_forbidden_placeholder_blocks_send.2 [FmtItem.field "a.b"] kw0 rfl
      ⟨"a.b", by decide, rfl⟩
      (by
        intro n hn
        simp only [List.mem_cons, List.not_mem_nil, or_false, FmtItem.field.injEq] at hn
        subst hn
        exact Or.inl rfl)⟩

theorem c4_suppression_iff_witness :
    pyDictGet r4.task_fields "action" = PyVal.str "shell"
    ∧ r4.role = PyVal.str "nginx"
    ∧ (handle_event (parse_ignore_names (some "copy,shell"))
         (parse_ignore_names Option.none) (parse_ignore_names Option.none)
         (parse_ignore_statuses Option.none)
         c0 sess0 "OK" r4 (PyVal.int 1) "2021-01-01T00:00:00Z" (PyVal.int 0) = Option.none
       ↔ (pyLower "OK" ∈ parse_ignore_statuses Option.none
          ∨ "shell" ∈ parse_ignore_names (some "copy,shell")
          ∨ "nginx" ∈ parse_ignore_names Option.none
          ∨ sess0.ansible_playbook ∈ parse_ignore_names Option.none)) :=
  ⟨rfl, rfl,
   c4_suppression_iff.1 (some "copy,shell") Option.none Option.none Option.none
     c0 sess0 "OK" r4 (PyVal.int 1) "2021-01-01T00:00:00Z" (PyVal.int 0)
     "shell" "nginx" rfl rfl⟩

theorem c8_level_mapping_witness :
    send_logdna c0 sess0 "OK" r0 (PyVal.int 1) "2021-01-01T00:00:00Z" (PyVal.int 0)
      = Except.ok req0
    ∧ ∃ line, req0.body = PyVal.dict (.cons "lines" (.list (.cons (.dict line) .nil)) .nil)
        ∧ line.get? "level" = (if truthy c0.conf_disable_loglevel then Option.none
                               else some (PyVal.str (loglevelFor "OK"))) :=
  ⟨rfl, c8_level_mapping.1 c0 sess0 "OK" r0 (PyVal.int 1) "2021-01-01T00:00:00Z"
     (PyVal.int 0) req0 rfl⟩

theorem c9_hostname_amended_witness :
    c9c.conf_hostname = set_options_hostname useT0 (PyVal.str "cfg-hostname") "runner"
    ∧ req9.hostname =
        (if truthy useT0 then
           (if truthy (PyVal.str "cfg-hostname") then PyVal.str "cfg-hostname"
            else PyVal.str r0.host_name)
         else
           (if "runner" ≠ "" then PyVal.str "runner" else PyVal.str r0.host_name)) :=
  ⟨rfl, c9_hostname_amended useT0 (PyVal.str "cfg-hostname") "runner" c9c sess0 "OK" r0
     (PyVal.int 1) "2021-01-01T00:00:00Z" (PyVal.int 0) req9 rfl rfl⟩

theorem c10_prune_removes_falsy_witness :
    pyDictGet r0.result "changed" = PyVal.bool false
    ∧ (deleteEmptyDict (build_meta false (PyVal.str "") PyVal.none sess0 "OK" r0
         (PyVal.int 1))).get? "ansible_changed" = Option.none
    ∧ (deleteEmptyDict (build_meta false (PyVal.str "") PyVal.none sess0 "OK" r0
         (PyVal.int 1))).get? "ansible_check_mode" = Option.none :=
  ⟨rfl,
   c10_prune_removes_falsy.2.1 false (PyVal.str "") PyVal.none sess0 "OK" r0
     (PyVal.int 1) rfl,
   c10_prune_removes_falsy.2.2 (PyVal.str "") PyVal.none sess0 "OK" r0 (PyVal.int 1)⟩
